import Mathlib

/-!
Verification of the Viralclips repository against its natural-language
specification.  The repository ships a web frontend, two SQL schemas and
documentation; the processing backend (orchestrator, highlight scorer,
clip renderer, quota service) is described by the specification but not
present in the source tree, so those parts are modelled from the spec and
marked as such in their doc comments.  Everything else is translated
directly from the source files cited in each doc comment.
-/

namespace Viralclips

/-! ## Job status enumerations, from the source -/

/-- The CHECK constraint on `jobs.status` in `shared/schemas/database.sql`
(line 149): `status IN ('pending','running','completed','failed','cancelled')`. -/
def jobsStatusCheck (s : String) : Bool :=
  s == "pending" || s == "running" || s == "completed" || s == "failed" ||
    s == "cancelled"

/-- The values of the `job_status` SQL enum declared in `unnamed/part_007`
line 7: `CREATE TYPE job_status AS ENUM ('pending','processing','completed','failed')`. -/
def legacyJobStatusValues : List String :=
  ["pending", "processing", "completed", "failed"]

/-- The values of the frontend `JobStatus` enum in
`frontend/src/types/index.ts` lines 1-6 (PENDING, PROCESSING, COMPLETED,
FAILED with the listed string values). -/
def frontendJobStatusValues : List String :=
  ["pending", "processing", "completed", "failed"]

/-! ## Clip rows, from `shared/schemas/database.sql` -/

/-- A row of the `clips` table restricted to its timing columns.
`start_time` and `end_time` are `DECIMAL(10,3)`, i.e. exact multiples of
1/1000; we model them as integer counts of milliseconds. -/
structure ClipRow where
  start_ms : Int
  end_ms : Int
deriving DecidableEq, Repr

/-- `clips.start_time` in seconds. -/
def ClipRow.start_time (c : ClipRow) : Rat := (c.start_ms : Rat) / 1000

/-- `clips.end_time` in seconds. -/
def ClipRow.end_time (c : ClipRow) : Rat := (c.end_ms : Rat) / 1000

/-- The generated column of `shared/schemas/database.sql` line 106:
`duration_seconds DECIMAL(10,3) GENERATED ALWAYS AS (end_time - start_time) STORED`. -/
def ClipRow.duration_seconds (c : ClipRow) : Rat :=
  c.end_time - c.start_time

/-! ## Upload widget, from `frontend/src/components/UploadArea.tsx` and
`frontend/src/types/index.ts` -/

/-- `frontend/src/types/index.ts` line 252: `MAX_FILE_SIZE_FREE = 100 * 1024 * 1024`. -/
def MAX_FILE_SIZE_FREE : Nat := 100 * 1024 * 1024

/-- `frontend/src/types/index.ts` line 253: `MAX_FILE_SIZE_PREMIUM = 1024 * 1024 * 1024`. -/
def MAX_FILE_SIZE_PREMIUM : Nat := 1024 * 1024 * 1024

/-- A file handed to the dropzone `onDrop` callback. -/
structure DroppedFile where
  name : String
  size : Nat
deriving DecidableEq, Repr

/-- The observable outcome of one `onDrop` invocation.  `noFile` is the
early return on an empty list; `rejectedTooLarge` is the
`toast.error` + `return` branch, taken before any `ApiClient` call;
`uploadStarted` is the call to `handleFileUpload file`. -/
inductive DropOutcome
  | noFile
  | rejectedTooLarge
  | uploadStarted (file : DroppedFile)
deriving DecidableEq, Repr

/-- The `onDrop` callback of `UploadArea.tsx` lines 21-33: takes
`acceptedFiles[0]`, returns if absent, rejects when
`file.size > MAX_FILE_SIZE_FREE` (the `maxSize` constant is always the
free-tier limit; no subscription tier is consulted), otherwise starts the
upload. -/
def onDrop (acceptedFiles : List DroppedFile) : DropOutcome :=
  match acceptedFiles with
  | [] => DropOutcome.noFile
  | file :: _ =>
    if file.size > MAX_FILE_SIZE_FREE then DropOutcome.rejectedTooLarge
    else DropOutcome.uploadStarted file

/-- The `ApiClient` methods invoked by `onDrop` via `handleFileUpload`
(`UploadArea.tsx` lines 44-86), in call order.  The rejection and
empty-list branches return before any API call. -/
def onDropApiCalls (acceptedFiles : List DroppedFile) : List String :=
  match acceptedFiles with
  | [] => []
  | file :: _ =>
    if file.size > MAX_FILE_SIZE_FREE then []
    else ["uploadVideo", "uploadFile", "pollJobStatus"]

/-! ## Job polling, from `pollJobStatus` in `frontend/src/lib/api.ts`
(concatenated into `frontend/src/types/index.ts` lines 385-408) -/

/-- One round trip of the `poll` closure: either the awaited
`ApiClient.getJobStatus` returns a response carrying a status string, or
the request throws. -/
inductive PollReply
  | ok (status : String)
  | thrown
deriving DecidableEq, Repr

/-- How the promise returned by `pollJobStatus` settles. -/
inductive PollOutcome
  | resolved (status : String)
  | rejected
deriving DecidableEq, Repr

/-- The resolution test of `pollJobStatus`:
`status.status === 'completed' || status.status === 'failed'`. -/
def isTerminalPoll (s : String) : Bool :=
  s == "completed" || s == "failed"

/-- `pollJobStatus` run against a finite prefix of poll replies.  `none`
means the promise has neither resolved nor rejected after these replies:
every non-terminal `ok` reply reaches the `setTimeout(poll, interval)`
branch and schedules another poll; a `thrown` reply runs `reject(error)`;
a terminal `ok` reply runs `resolve(status)`. -/
def pollRun : List PollReply → Option PollOutcome
  | [] => none
  | PollReply.thrown :: _ => some PollOutcome.rejected
  | PollReply.ok s :: rest =>
    if isTerminalPoll s then some (PollOutcome.resolved s) else pollRun rest

/-! ## Job orchestrator state machine

Modelled from the spec: the Job Orchestrator (spec section 4.5) is not in
the repository; only its persisted shape (the `jobs` table) and the error
taxonomy (spec section 7) are recorded.  The machine below follows the
spec's words: states `pending → running → compl | failed | cancelled`,
`failed → pending` only while `retry_count < max_retries` (incrementing
`retry_count` and resetting progress to 0), `cancelled` reachable only
from `pending` or `running` and terminal, progress updates clamped to
[0,100] and persisted monotonically, and a failing stage recording a
non-empty message of a taxonomy error kind. -/

/-- The five orchestrator states of spec section 4.5, matching the
`jobs.status` CHECK constraint of `shared/schemas/database.sql`. -/
inductive JStatus
  | pending
  | running
  | completed
  | failed
  | cancelled
deriving DecidableEq, Repr

/-- The string stored in `jobs.status` for each state. -/
def JStatus.name : JStatus → String
  | JStatus.pending => "pending"
  | JStatus.running => "running"
  | JStatus.completed => "completed"
  | JStatus.failed => "failed"
  | JStatus.cancelled => "cancelled"

/-- Modelled from the spec: the error taxonomy of spec section 7. -/
inductive ErrorKind
  | UnsupportedFormat
  | SourceNotFound
  | SourceTooLarge
  | QuotaExceeded
  | SourceUnavailable
  | EncodeFailed
  | Timeout
  | NoAudioTrack
  | SourceTrimFailed
deriving DecidableEq, Repr

/-- The human-readable message recorded for each taxonomy kind (spec
section 7: a typed error is "kind + human message"). -/
def ErrorKind.message : ErrorKind → String
  | ErrorKind.UnsupportedFormat => "UnsupportedFormat"
  | ErrorKind.SourceNotFound => "SourceNotFound"
  | ErrorKind.SourceTooLarge => "SourceTooLarge"
  | ErrorKind.QuotaExceeded => "QuotaExceeded"
  | ErrorKind.SourceUnavailable => "SourceUnavailable"
  | ErrorKind.EncodeFailed => "EncodeFailed"
  | ErrorKind.Timeout => "Timeout"
  | ErrorKind.NoAudioTrack => "NoAudioTrack"
  | ErrorKind.SourceTrimFailed => "SourceTrimFailed"

/-- The orchestrator-owned fields of a `jobs` row
(`shared/schemas/database.sql` lines 144-162). -/
structure JobState where
  status : JStatus
  progress : Int
  retry_count : Nat
  max_retries : Nat
  error_message : Option String
deriving DecidableEq, Repr

/-- Modelled from the spec: "the Orchestrator clamps to [0,100]"
(spec section 4.5). -/
def clampProgress (p : Int) : Int := max 0 (min 100 p)

/-- Modelled from the spec: "persists monotonically (rejects a lower
value arriving out of order)" (spec section 4.5) — the clamped incoming
value replaces the stored one only when it is not lower. -/
def applyProgressUpdate (cur incoming : Int) : Int :=
  let c := clampProgress incoming
  if c < cur then cur else c

/-- Modelled from the spec: the orchestrator transition relation of spec
section 4.5. -/
inductive JobStep : JobState → JobState → Prop
  | start (p : Int) (r m : Nat) (e : Option String) :
      JobStep ⟨JStatus.pending, p, r, m, e⟩ ⟨JStatus.running, p, r, m, e⟩
  | report (p : Int) (r m : Nat) (e : Option String) (incoming : Int) :
      JobStep ⟨JStatus.running, p, r, m, e⟩
        ⟨JStatus.running, applyProgressUpdate p incoming, r, m, e⟩
  | finish (p : Int) (r m : Nat) (e : Option String) :
      JobStep ⟨JStatus.running, p, r, m, e⟩ ⟨JStatus.completed, p, r, m, e⟩
  | fail (p : Int) (r m : Nat) (e : Option String) (k : ErrorKind) :
      JobStep ⟨JStatus.running, p, r, m, e⟩
        ⟨JStatus.failed, p, r, m, some (ErrorKind.message k)⟩
  | retry (p : Int) (r m : Nat) (e : Option String) :
      r < m →
      JobStep ⟨JStatus.failed, p, r, m, e⟩ ⟨JStatus.pending, 0, r + 1, m, e⟩
  | cancelPending (p : Int) (r m : Nat) (e : Option String) :
      JobStep ⟨JStatus.pending, p, r, m, e⟩ ⟨JStatus.cancelled, p, r, m, e⟩
  | cancelRunning (p : Int) (r m : Nat) (e : Option String) :
      JobStep ⟨JStatus.running, p, r, m, e⟩ ⟨JStatus.cancelled, p, r, m, e⟩

/-- A Job as created: `status` and `progress` take the schema defaults
`'pending'` and `0`, `retry_count` the default `0`, no error message. -/
def initialJob (maxRetries : Nat) : JobState :=
  ⟨JStatus.pending, 0, 0, maxRetries, none⟩

/-- Job states reachable from a freshly created Job through orchestrator
transitions. -/
inductive JobReachable : JobState → Prop
  | init (maxRetries : Nat) : JobReachable (initialJob maxRetries)
  | step {a b : JobState} : JobReachable a → JobStep a b → JobReachable b

/-- The polling surface of `jobs`: the `JobStatusResponse` shape of
`frontend/src/types/index.ts` lines 138-144, restricted to the fields the
claims mention. -/
structure JobStatusResponse where
  status : JStatus
  progress : Int
  error_message : Option String
deriving DecidableEq, Repr

/-- Modelled from the spec: the poll-based job status surface (spec
section 6) reads the persisted record of the requested Job id. -/
def getJobStatus (store : String → JobState) (jobId : String) : JobStatusResponse :=
  ⟨(store jobId).status, (store jobId).progress, (store jobId).error_message⟩

/-! ## Per-user daily clip quota

Modelled from the spec: the quota service (spec sections 5 and 9) is not
in the repository; only the counter columns (`users.daily_clips_used`,
`users.daily_clips_limit`) and the `reset_daily_clips()` function are.
The spec requires check-and-increment to be "a single atomic operation
(e.g., conditional update), not a read-then-write pair"; accordingly one
export request is one indivisible step, so any interleaving of concurrent
requests is some serial order of these steps. -/

/-- The per-user counter columns of the `users` table. -/
structure QuotaState where
  used : Nat
  limit : Nat
deriving DecidableEq, Repr

/-- Modelled from the spec: the atomic compare-and-increment — in one
step, succeed and increment when the counter is below the limit,
otherwise reject. -/
def tryIncrement (s : QuotaState) : QuotaState × Bool :=
  if s.used < s.limit then (⟨s.used + 1, s.limit⟩, true) else (s, false)

/-- Run `n` export requests serially (one per atomic step) and count the
successes.  Because each request is a single atomic step, every
interleaving of `n` concurrent requests executes exactly this way. -/
def runExports : QuotaState → Nat → QuotaState × Nat
  | s, 0 => (s, 0)
  | s, n + 1 =>
    let r := tryIncrement s
    let rest := runExports r.1 n
    (rest.1, (if r.2 then 1 else 0) + rest.2)

/-- `reset_daily_clips()` from `unnamed/part_007` lines 152-157 (and
`shared/schemas/database.sql` lines 308-313): sets the used counter of
every user to 0. -/
def reset_daily_clips (s : QuotaState) : QuotaState :=
  ⟨0, s.limit⟩

/-! ## Highlight scorer

Modelled from the spec: the Highlight Scorer (spec section 4.3) is not in
the repository; only the `highlights` table and the `/highlight` API call
are.  Following the spec's words: candidate windows bounded by
`[minClipLen, maxClipLen]` (defaults 15 s / 60 s) and by the video
duration, a length-normalised lexical score in [0,1], a deterministic
sort by score descending with ties broken by earlier start time, then
greedy non-maximum suppression (default: no overlap permitted), truncated
to `maxHighlights`. -/

/-- Modelled from the spec: a transcript segment; the lexical signal of a
segment is abstracted to its word count. -/
structure Segment where
  start : Rat
  stop : Rat
  words : Nat
deriving DecidableEq, Repr

/-- Modelled from the spec: a transcript as its ordered segments. -/
structure Transcript where
  segments : List Segment
deriving DecidableEq, Repr

/-- Default minimum clip length, 15 seconds (spec section 4.3). -/
def minClipLen : Rat := 15

/-- Default maximum clip length, 60 seconds (spec section 4.3). -/
def maxClipLen : Rat := 60

/-- A scored candidate window / returned Highlight: the `start_time`,
`end_time` and `score` columns of the `highlights` table
(`unnamed/part_007` lines 46-56); `end` is a reserved word, written
`stop`. -/
structure Candidate where
  start : Rat
  stop : Rat
  score : Rat
deriving DecidableEq, Repr

/-- Modelled from the spec: the ranking order — higher score first, equal
scores broken by earlier start time (spec section 4.3 tie-break). -/
def candRel (a b : Candidate) : Prop :=
  b.score < a.score ∨ (a.score = b.score ∧ a.start ≤ b.start)

instance : DecidableRel candRel := fun a b =>
  inferInstanceAs (Decidable (b.score < a.score ∨ (a.score = b.score ∧ a.start ≤ b.start)))

instance : IsTotal Candidate candRel := by
  constructor
  intro a b
  rcases lt_trichotomy a.score b.score with h | h | h
  · exact Or.inr (Or.inl h)
  · rcases le_total a.start b.start with hs | hs
    · exact Or.inl (Or.inr ⟨h, hs⟩)
    · exact Or.inr (Or.inr ⟨h.symm, hs⟩)
  · exact Or.inl (Or.inl h)

instance : IsTrans Candidate candRel := by
  constructor
  intro a b c hab hbc
  rcases hab with hab | ⟨hab, sab⟩
  · rcases hbc with hbc | ⟨hbc, _⟩
    · exact Or.inl (hbc.trans hab)
    · exact Or.inl (hbc ▸ hab)
  · rcases hbc with hbc | ⟨hbc, sbc⟩
    · exact Or.inl (hab ▸ hbc)
    · exact Or.inr ⟨hab.trans hbc, sab.trans sbc⟩

/-- Modelled from the spec: the deterministic ranking sort of candidate
windows. -/
def sortCandidates (cands : List Candidate) : List Candidate :=
  cands.insertionSort candRel

/-- Length of the intersection of two candidate intervals (negative when
they are disjoint). -/
def overlapLen (a b : Candidate) : Rat :=
  min a.stop b.stop - max a.start b.start

/-- Modelled from the spec: whether candidate `c` overlaps the
already-selected `s` "by more than a configurable fraction" of `c`'s
length (spec section 4.3). -/
def overlapsMoreThan (f : Rat) (s c : Candidate) : Bool :=
  f * (c.stop - c.start) < overlapLen s c

/-- The default overlap policy: "no overlap permitted". -/
def defaultOverlapFraction : Rat := 0

/-- One step of greedy non-maximum suppression: skip the candidate when
it overlaps any already-selected Highlight by more than the configured
fraction, otherwise select it. -/
def nmsStep (f : Rat) (sel : List Candidate) (c : Candidate) : List Candidate :=
  if sel.any (fun s => overlapsMoreThan f s c) then sel else sel ++ [c]

/-- Modelled from the spec: greedy non-maximum suppression over candidates
in ranking order. -/
def nms (f : Rat) (cands : List Candidate) : List Candidate :=
  cands.foldl (nmsStep f) []

/-- Modelled from the spec: highest-score-first greedy selection — sort,
suppress overlaps under the default policy, truncate to `maxHighlights`. -/
def selectHighlights (maxHighlights : Nat) (cands : List Candidate) : List Candidate :=
  (nms defaultOverlapFraction (sortCandidates cands)).take maxHighlights

/-- Total word count of the transcript segments wholly inside `[a, b]`. -/
def wordsIn (t : Transcript) (a b : Rat) : Nat :=
  ((t.segments.filter (fun seg => a ≤ seg.start && seg.stop ≤ b)).map
    (fun seg => seg.words)).sum

/-- Modelled from the spec: score a window by its length-normalised
lexical density, capped into the fixed range [0,1]. -/
def scoreWindow (t : Transcript) (w : Rat × Rat) : Candidate :=
  ⟨w.1, w.2, min 1 ((wordsIn t w.1 w.2 : Rat) / (w.2 - w.1))⟩

/-- Modelled from the spec: candidate windows anchored at segment starts,
extended up to `maxClipLen` but clamped to the video duration, and kept
only when bounded by `[minClipLen, maxClipLen]`, starting at or after 0
and ending at or before the video duration. -/
def genWindows (t : Transcript) (videoDuration : Rat) : List (Rat × Rat) :=
  (t.segments.map (fun seg => (seg.start, min (seg.start + maxClipLen) videoDuration))).filter
    (fun w => 0 ≤ w.1 && minClipLen ≤ w.2 - w.1 && w.2 - w.1 ≤ maxClipLen &&
      w.2 ≤ videoDuration)

/-- Modelled from the spec: `detectHighlights(transcript, maxHighlights,
videoDuration)` — generate candidate windows, score them, and greedily
select (spec section 4.3). -/
def detectHighlights (t : Transcript) (maxHighlights : Nat) (videoDuration : Rat) :
    List Candidate :=
  selectHighlights maxHighlights ((genWindows t videoDuration).map (scoreWindow t))

/-! ## Helper lemmas -/

theorem applyProgressUpdate_ge (cur u : Int) : cur ≤ applyProgressUpdate cur u := by
  unfold applyProgressUpdate
  dsimp only
  split
  · exact le_refl cur
  · omega

theorem applyProgressUpdate_bounds (cur u : Int) (h0 : 0 ≤ cur) (h1 : cur ≤ 100) :
    0 ≤ applyProgressUpdate cur u ∧ applyProgressUpdate cur u ≤ 100 := by
  unfold applyProgressUpdate clampProgress
  dsimp only
  split <;> omega

theorem applyProgressUpdate_reject (cur u : Int) (h0 : 0 ≤ cur) (h : u < cur) :
    applyProgressUpdate cur u = cur := by
  unfold applyProgressUpdate clampProgress
  dsimp only
  split <;> omega

theorem nms_foldl_eq_append (f : Rat) (l : List Candidate) :
    ∀ sel : List Candidate,
      ∃ s, List.foldl (nmsStep f) sel l = sel ++ s ∧ s.Sublist l := by
  induction l with
  | nil => exact fun sel => ⟨[], by simp, List.nil_sublist []⟩
  | cons c l ih =>
    intro sel
    by_cases hc : sel.any (fun s => overlapsMoreThan f s c)
    · rcases ih sel with ⟨s, hs, hsub⟩
      refine ⟨s, ?_, hsub.cons c⟩
      simpa [nmsStep, hc] using hs
    · rcases ih (sel ++ [c]) with ⟨s, hs, hsub⟩
      refine ⟨c :: s, ?_, hsub.cons₂ c⟩
      simp only [List.foldl, nmsStep, hc, Bool.false_eq_true, if_false] at hs ⊢
      rw [hs, List.append_assoc, List.singleton_append]

theorem nms_sublist (f : Rat) (l : List Candidate) : (nms f l).Sublist l := by
  rcases nms_foldl_eq_append f l [] with ⟨s, hs, hsub⟩
  unfold nms
  rw [hs]
  simpa using hsub

theorem nms_foldl_pairwise (f : Rat) (l : List Candidate) :
    ∀ sel : List Candidate,
      sel.Pairwise (fun a b => overlapsMoreThan f a b = false) →
      (List.foldl (nmsStep f) sel l).Pairwise
        (fun a b => overlapsMoreThan f a b = false) := by
  induction l with
  | nil => exact fun sel h => by simpa using h
  | cons c l ih =>
    intro sel h
    simp only [List.foldl]
    apply ih
    unfold nmsStep
    by_cases hc : sel.any (fun s => overlapsMoreThan f s c)
    · rw [if_pos hc]; exact h
    · rw [if_neg hc, List.pairwise_append]
      refine ⟨h, by simp, ?_⟩
      intro a ha b hb
      rw [List.mem_singleton] at hb
      subst hb
      rw [Bool.not_eq_true, List.any_eq_false] at hc
      simpa using hc a ha

theorem nms_pairwise (f : Rat) (l : List Candidate) :
    (nms f l).Pairwise (fun a b => overlapsMoreThan f a b = false) :=
  nms_foldl_pairwise f l [] List.Pairwise.nil

theorem mem_detectHighlights {t : Transcript} {mh : Nat} {dur : Rat} {h : Candidate}
    (hmem : h ∈ detectHighlights t mh dur) :
    ∃ w ∈ genWindows t dur, h = scoreWindow t w := by
  simp only [detectHighlights, selectHighlights] at hmem
  have h1 := List.take_subset mh _ hmem
  have h2 := (nms_sublist defaultOverlapFraction _).subset h1
  simp only [sortCandidates, List.mem_insertionSort] at h2
  rcases List.mem_map.mp h2 with ⟨w, hw, hww⟩
  exact ⟨w, hw, hww.symm⟩

/-! ## Claim theorems -/

/-- C7: for every rendered Clip row, the recorded artifact duration
(the generated column `duration_seconds`) equals `end_time - start_time`
exactly, hence within the ±0.1 s tolerance. -/
theorem clip_duration_fidelity (c : ClipRow) :
    c.duration_seconds = c.end_time - c.start_time ∧
      |c.duration_seconds - (c.end_time - c.start_time)| ≤ 1 / 10 := by
  refine ⟨rfl, ?_⟩
  simp only [ClipRow.duration_seconds, sub_self, abs_zero]
  norm_num

/-- C9: a dropped file larger than the 100 MiB `MAX_FILE_SIZE_FREE`
constant is rejected by `onDrop` before any API call (so no Video record
and no Job are created); the same threshold applies even to sizes within
the separate 1 GiB `MAX_FILE_SIZE_PREMIUM` constant, which exists and is
larger but is never consulted by `onDrop`. -/
theorem upload_rejects_oversize :
    (∀ (files : List DroppedFile) (f : DroppedFile), files.head? = some f →
        MAX_FILE_SIZE_FREE < f.size →
        onDrop files = DropOutcome.rejectedTooLarge ∧ onDropApiCalls files = []) ∧
    (∀ (files : List DroppedFile) (f : DroppedFile), files.head? = some f →
        f.size ≤ MAX_FILE_SIZE_FREE → onDrop files = DropOutcome.uploadStarted f) ∧
    MAX_FILE_SIZE_FREE = 100 * 1024 * 1024 ∧
    MAX_FILE_SIZE_PREMIUM = 1024 * 1024 * 1024 ∧
    MAX_FILE_SIZE_FREE < MAX_FILE_SIZE_PREMIUM := by
  refine ⟨?_, ?_, rfl, rfl, by norm_num [MAX_FILE_SIZE_FREE, MAX_FILE_SIZE_PREMIUM]⟩
  · intro files f hh hsize
    cases files with
    | nil => simp at hh
    | cons a l =>
      rw [List.head?_cons, Option.some.injEq] at hh
      subst hh
      constructor <;> simp [onDrop, onDropApiCalls, hsize]
  · intro files f hh hsize
    cases files with
    | nil => simp at hh
    | cons a l =>
      rw [List.head?_cons, Option.some.injEq] at hh
      subst hh
      simp [onDrop, Nat.not_lt.mpr hsize]

/-- C9 witness: a 200 MiB file is rejected with no API call. -/
theorem upload_rejects_oversize_witness :
    onDrop [⟨"big.mp4", 200 * 1024 * 1024⟩] = DropOutcome.rejectedTooLarge ∧
      onDropApiCalls [⟨"big.mp4", 200 * 1024 * 1024⟩] = [] :=
  upload_rejects_oversize.1 [⟨"big.mp4", 200 * 1024 * 1024⟩] ⟨"big.mp4", 200 * 1024 * 1024⟩
    rfl (by norm_num [MAX_FILE_SIZE_FREE])

/-- C10: `pollJobStatus` resolves exactly on the statuses `completed` and
`failed`; a reply sequence of non-terminal statuses — in particular
`cancelled` — never resolves or rejects the promise after any finite
number of polls, and a throwing poll request is the only way to reject. -/
theorem poll_resolves_only_terminal :
    (∀ (l : List PollReply) (s : String),
        pollRun l = some (PollOutcome.resolved s) → isTerminalPoll s = true) ∧
    (∀ (l : List PollReply) (s : String), isTerminalPoll s = true →
        pollRun (PollReply.ok s :: l) = some (PollOutcome.resolved s)) ∧
    (∀ l : List PollReply,
        (∀ r ∈ l, ∃ s, r = PollReply.ok s ∧ isTerminalPoll s = false) →
        pollRun l = none) ∧
    (∀ n : Nat, pollRun (List.replicate n (PollReply.ok "cancelled")) = none) := by
  have h3 : ∀ l : List PollReply,
      (∀ r ∈ l, ∃ s, r = PollReply.ok s ∧ isTerminalPoll s = false) →
      pollRun l = none := by
    intro l
    induction l with
    | nil => intro _; rfl
    | cons r rest ih =>
      intro hall
      rcases hall r (List.mem_cons_self r rest) with ⟨s, hr, hterm⟩
      subst hr
      rw [pollRun, if_neg (by simp [hterm])]
      exact ih fun x hx => hall x (List.mem_cons_of_mem _ hx)
  refine ⟨?_, ?_, h3, ?_⟩
  · intro l
    induction l with
    | nil => intro s h; exact absurd h (by simp [pollRun])
    | cons r rest ih =>
      intro s h
      cases r with
      | thrown => rw [pollRun] at h; exact absurd h (by simp)
      | ok u =>
        by_cases hu : isTerminalPoll u
        · rw [pollRun, if_pos hu] at h
          have : u = s := by
            have := Option.some.inj h
            exact PollOutcome.resolved.inj this
          exact this ▸ hu
        · rw [pollRun, if_neg hu] at h
          exact ih s h
  · intro l s h
    rw [pollRun, if_pos h]
  · intro n
    apply h3
    intro r hr
    rw [List.eq_of_mem_replicate hr]
    exact ⟨"cancelled", rfl, by decide⟩

/-- C10 witness: a first reply of `completed` resolves with it. -/
theorem poll_resolves_only_terminal_witness :
    pollRun [PollReply.ok "completed"] = some (PollOutcome.resolved "completed") :=
  poll_resolves_only_terminal.2.1 [] "completed" (by decide)

/-- C3: every Highlight returned by a detection run satisfies the bounds
0 ≤ start < end ≤ videoDuration and end − start ∈ [minClipLen, maxClipLen]. -/
theorem highlight_bounds (t : Transcript) (mh : Nat) (dur : Rat) (h : Candidate)
    (hmem : h ∈ detectHighlights t mh dur) :
    0 ≤ h.start ∧ h.start < h.stop ∧ h.stop ≤ dur ∧
      minClipLen ≤ h.stop - h.start ∧ h.stop - h.start ≤ maxClipLen := by
  rcases mem_detectHighlights hmem with ⟨w, hw, rfl⟩
  simp only [genWindows, List.mem_filter] at hw
  obtain ⟨-, hcond⟩ := hw
  simp only [Bool.and_eq_true, decide_eq_true_eq] at hcond
  obtain ⟨⟨⟨h0, hmin⟩, hmax⟩, hdur⟩ := hcond
  have hpos : (0 : Rat) < minClipLen := by norm_num [minClipLen]
  simp only [scoreWindow]
  exact ⟨h0, by linarith, hdur, hmin, hmax⟩

/-- C3 witness: a 30-second window detected on a one-segment transcript
satisfies the bounds for a 30-second video. -/
theorem highlight_bounds_witness :
    0 ≤ (0 : Rat) ∧ (0 : Rat) < 30 ∧ (30 : Rat) ≤ 30 ∧
      minClipLen ≤ (30 : Rat) - 0 ∧ (30 : Rat) - 0 ≤ maxClipLen :=
  highlight_bounds ⟨[⟨0, 20, 2⟩]⟩ 5 30 ⟨0, 30, 1 / 15⟩ (by
    have hd : detectHighlights ⟨[⟨0, 20, 2⟩]⟩ 5 30 = [⟨0, 30, 1 / 15⟩] := by
      norm_num [detectHighlights, selectHighlights, sortCandidates, nms, nmsStep,
        overlapsMoreThan, overlapLen, defaultOverlapFraction, candRel,
        List.insertionSort, List.orderedInsert, genWindows, scoreWindow, wordsIn,
        minClipLen, maxClipLen]
    rw [hd]
    exact List.mem_singleton_self _)

/-- C5: greedy non-maximum suppression — under the default no-overlap
policy the scenario candidates [10,40] scoring 0.9 and [20,50] scoring
0.85 select only [10,40], and no two Highlights of one detection run have
intersecting intervals (their overlap length is never positive). -/
theorem highlight_selection_no_overlap :
    selectHighlights 5 [⟨10, 40, 9 / 10⟩, ⟨20, 50, 85 / 100⟩] = [⟨10, 40, 9 / 10⟩] ∧
    ∀ (t : Transcript) (mh : Nat) (dur : Rat),
      (detectHighlights t mh dur).Pairwise (fun a b => overlapLen a b ≤ 0) := by
  constructor
  · norm_num [selectHighlights, sortCandidates, nms, nmsStep, overlapsMoreThan, overlapLen,
      defaultOverlapFraction, candRel, List.insertionSort, List.orderedInsert]
  · intro t mh dur
    have h := nms_pairwise defaultOverlapFraction
      (sortCandidates ((genWindows t dur).map (scoreWindow t)))
    have h2 : (nms defaultOverlapFraction
        (sortCandidates ((genWindows t dur).map (scoreWindow t)))).Pairwise
        (fun a b => overlapLen a b ≤ 0) := by
      refine h.imp ?_
      intro a b hab
      simpa only [overlapsMoreThan, defaultOverlapFraction, zero_mul,
        decide_eq_false_iff_not, not_lt] using hab
    simpa only [detectHighlights, selectHighlights] using
      h2.sublist (List.take_sublist mh _)

/-- C6: `detectHighlights` is deterministic — equal inputs give equal
output — and the returned ranking is ordered by score descending with
equal scores broken in favour of the earlier start time. -/
theorem detectHighlights_deterministic :
    (∀ (t : Transcript) (mh : Nat) (dur : Rat),
        detectHighlights t mh dur = detectHighlights t mh dur) ∧
    ∀ (t : Transcript) (mh : Nat) (dur : Rat),
      (detectHighlights t mh dur).Pairwise (fun a b =>
        b.score < a.score ∨ (a.score = b.score ∧ a.start ≤ b.start)) := by
  refine ⟨fun _ _ _ => rfl, ?_⟩
  intro t mh dur
  have hs : (sortCandidates ((genWindows t dur).map (scoreWindow t))).Pairwise candRel :=
    List.sorted_insertionSort candRel _
  have h1 : (nms defaultOverlapFraction
      (sortCandidates ((genWindows t dur).map (scoreWindow t)))).Pairwise candRel :=
    hs.sublist (nms_sublist defaultOverlapFraction _)
  simpa only [detectHighlights, selectHighlights] using
    h1.sublist (List.take_sublist mh _)

/-- C1 counterexample: not every Job status value stored or exposed by
the program is one of the five claimed states — both the frontend
`JobStatus` enum and the legacy `job_status` SQL enum carry the value
`processing`, which the five-state CHECK constraint rejects. -/
theorem job_status_five_states_counterexample :
    "processing" ∈ frontendJobStatusValues ∧ "processing" ∈ legacyJobStatusValues ∧
      jobsStatusCheck "processing" = false := by decide

/-- C1 (amended): the `jobs.status` CHECK constraint admits exactly the
five states named by the orchestrator machine, and every machine
transition obeys the claimed structure: `running` is entered only from
`pending` (progress reports keep `running` unchanged), `completed` and
`failed` only from `running`, `failed → pending` only while
`retry_count < max_retries` (incrementing `retry_count`, resetting
progress to 0), `cancelled` only from `pending` or `running`, and
`cancelled` (like `completed`) has no outgoing transition. -/
theorem job_state_machine :
    (∀ j : JStatus, jobsStatusCheck (JStatus.name j) = true) ∧
    (∀ s : String, jobsStatusCheck s = true → ∃ j : JStatus, JStatus.name j = s) ∧
    (∀ a b : JobState, JobStep a b →
      (a.status ≠ b.status → b.status = JStatus.running → a.status = JStatus.pending) ∧
      (b.status = JStatus.completed → a.status = JStatus.running) ∧
      (b.status = JStatus.failed → a.status = JStatus.running) ∧
      (a.status = JStatus.failed → b.status = JStatus.pending →
        a.retry_count < a.max_retries ∧ b.retry_count = a.retry_count + 1 ∧
          b.progress = 0) ∧
      (b.status = JStatus.cancelled →
        a.status = JStatus.pending ∨ a.status = JStatus.running) ∧
      (a.status = JStatus.cancelled → False) ∧
      (a.status = JStatus.completed → False)) := by
  refine ⟨?_, ?_, ?_⟩
  · intro j
    cases j <;> decide
  · intro s hs
    simp only [jobsStatusCheck, Bool.or_eq_true, beq_iff_eq] at hs
    rcases hs with ((((rfl | rfl) | rfl) | rfl) | rfl)
    · exact ⟨JStatus.pending, rfl⟩
    · exact ⟨JStatus.running, rfl⟩
    · exact ⟨JStatus.completed, rfl⟩
    · exact ⟨JStatus.failed, rfl⟩
    · exact ⟨JStatus.cancelled, rfl⟩
  · intro a b hstep
    cases hstep <;> refine ⟨?_, ?_, ?_, ?_, ?_, ?_, ?_⟩ <;> simp_all

/-- C1 witness: a retry transition from `failed` with `retry_count = 1`
and `max_retries = 3` goes back to `pending`, increments the count and
resets progress. -/
theorem job_state_machine_witness :
    1 < 3 ∧ 2 = 1 + 1 ∧ (0 : Int) = 0 :=
  (job_state_machine.2.2 ⟨JStatus.failed, 40, 1, 3, none⟩ ⟨JStatus.pending, 0, 2, 3, none⟩
    (JobStep.retry 40 1 3 none (by norm_num))).2.2.2.1 rfl rfl

/-- C2: incoming progress updates are clamped into [0,100]; a lower
incoming value is rejected and leaves the stored progress unchanged;
every reachable persisted progress lies in [0,100]; and a step that stays
in `running` never decreases progress. -/
theorem job_progress_clamped_monotone :
    (∀ cur u : Int, 0 ≤ cur → cur ≤ 100 →
        0 ≤ applyProgressUpdate cur u ∧ applyProgressUpdate cur u ≤ 100 ∧
        cur ≤ applyProgressUpdate cur u ∧
        (u < cur → applyProgressUpdate cur u = cur)) ∧
    (∀ s : JobState, JobReachable s → 0 ≤ s.progress ∧ s.progress ≤ 100) ∧
    (∀ a b : JobState, JobStep a b → a.status = JStatus.running →
        b.status = JStatus.running → a.progress ≤ b.progress) := by
  refine ⟨?_, ?_, ?_⟩
  · intro cur u h0 h1
    exact ⟨(applyProgressUpdate_bounds cur u h0 h1).1,
      (applyProgressUpdate_bounds cur u h0 h1).2, applyProgressUpdate_ge cur u,
      fun h => applyProgressUpdate_reject cur u h0 h⟩
  · intro s h
    induction h with
    | init m => exact ⟨le_refl 0, by norm_num [initialJob]⟩
    | step hr hstep ih =>
      cases hstep with
      | start p r m e => exact ih
      | report p r m e u => exact applyProgressUpdate_bounds p u ih.1 ih.2
      | finish p r m e => exact ih
      | fail p r m e k => exact ih
      | retry p r m e hrm => exact ⟨le_refl 0, by norm_num⟩
      | cancelPending p r m e => exact ih
      | cancelRunning p r m e => exact ih
  · intro a b hstep ha hb
    cases hstep with
    | start p r m e => simp at ha
    | report p r m e u => exact applyProgressUpdate_ge p u
    | finish p r m e => simp at hb
    | fail p r m e k => simp at hb
    | retry p r m e hrm => simp at ha
    | cancelPending p r m e => simp at ha
    | cancelRunning p r m e => simp at hb

/-- C2 witness: from a stored progress of 50, an update of 70 stays in
bounds and does not decrease; the rejection branch is vacuous here. -/
theorem job_progress_clamped_monotone_witness :
    0 ≤ applyProgressUpdate 50 70 ∧ applyProgressUpdate 50 70 ≤ 100 ∧
      50 ≤ applyProgressUpdate 50 70 ∧ ((70 : Int) < 50 → applyProgressUpdate 50 70 = 50) :=
  job_progress_clamped_monotone.1 50 70 (by norm_num) (by norm_num)

/-- C4: with the quota check-and-increment a single atomic step, a user
holding exactly `n` remaining clips who issues `n` export requests gets
exactly `n` successes, and the counter ends exactly at the limit (no
over-quota increment ever happens). -/
theorem quota_atomic_exact (used limit n : Nat) (h : used + n = limit) :
    (runExports ⟨used, limit⟩ n).2 = n ∧ (runExports ⟨used, limit⟩ n).1.used = limit := by
  induction n generalizing used with
  | zero =>
    refine ⟨rfl, ?_⟩
    simpa [runExports] using h
  | succ n ih =>
    have hlt : used < limit := by omega
    have ht : tryIncrement ⟨used, limit⟩ = (⟨used + 1, limit⟩, true) := by
      simp [tryIncrement, hlt]
    have ih2 := ih (used + 1) (by omega)
    constructor
    · simp only [runExports, ht]
      simp [ih2.1]
      omega
    · simp only [runExports, ht]
      simp [ih2.2]

/-- C4 witness: a user with 1 of 3 clips used (2 remaining) firing 2
requests gets 2 successes and ends exactly at the limit. -/
theorem quota_atomic_exact_witness :
    (runExports ⟨1, 3⟩ 2).2 = 2 ∧ (runExports ⟨1, 3⟩ 2).1.used = 3 :=
  quota_atomic_exact 1 3 2 (by norm_num)

/-- C8: every reachable Job in the `failed` status carries a non-empty
error message rendered from the error taxonomy, and the polling surface
reports exactly the persisted status, progress and error of the
requested Job id. -/
theorem failed_job_error_taxonomy :
    (∀ s : JobState, JobReachable s → s.status = JStatus.failed →
        ∃ k : ErrorKind, s.error_message = some (ErrorKind.message k) ∧
          ErrorKind.message k ≠ "") ∧
    (∀ (store : String → JobState) (jobId : String),
        getJobStatus store jobId =
          ⟨(store jobId).status, (store jobId).progress, (store jobId).error_message⟩) := by
  constructor
  · intro s h
    induction h with
    | init m => intro hs; simp [initialJob] at hs
    | step hr hstep ih =>
      intro hs
      cases hstep with
      | start p r m e => simp at hs
      | report p r m e u => simp at hs
      | finish p r m e => simp at hs
      | fail p r m e k => exact ⟨k, rfl, by cases k <;> decide⟩
      | retry p r m e hrm => simp at hs
      | cancelPending p r m e => simp at hs
      | cancelRunning p r m e => simp at hs
  · intro store jobId
    rfl

/-- C8 witness: a Job that failed with the `Timeout` taxonomy kind
carries the non-empty message `Timeout`. -/
theorem failed_job_error_taxonomy_witness :
    ∃ k : ErrorKind, (some "Timeout" : Option String) = some (ErrorKind.message k) ∧
      ErrorKind.message k ≠ "" :=
  failed_job_error_taxonomy.1 ⟨JStatus.failed, 0, 0, 3, some "Timeout"⟩
    (JobReachable.step
      (JobReachable.step (JobReachable.init 3) (JobStep.start 0 0 3 none))
      (JobStep.fail 0 0 3 none ErrorKind.Timeout))
    rfl

end Viralclips
